import Mathlib

set_option maxRecDepth 8000

set_option linter.unusedVariables false

/-- Gregorian leap-year test, as used by the proleptic Gregorian calendar
underlying JavaScript dates. -/
def isLeap (y : Nat) : Bool :=
  (y % 4 == 0 && y % 100 != 0) || y % 400 == 0

/-- Number of days in year `y`. -/
def daysInYear (y : Nat) : Nat :=
  if isLeap y then 366 else 365

/-- Number of days in month `m` (1-based) of year `y`; months outside 1..12
default to 31 (never reached on valid input). -/
def monthLen (y m : Nat) : Nat :=
  match m with
  | 2 => if isLeap y then 29 else 28
  | 4 => 30
  | 6 => 30
  | 9 => 30
  | 11 => 30
  | _ => 31

/-- Scan forward from year `y`, consuming whole years out of `days`.
Returns the landing year and the remaining day-of-year. -/
def yearOfAux : Nat → Nat → Nat → Nat × Nat
  | 0, days, y => (y, days)
  | fuel + 1, days, y =>
    if days < daysInYear y then (y, days)
    else yearOfAux fuel (days - daysInYear y) (y + 1)

/-- Year and day-of-year of a day count since 1970-01-01. -/
def yearOf (days : Nat) : Nat × Nat :=
  yearOfAux days days 1970

/-- Scan forward from month `m`, consuming whole months out of `doy`.
Returns the landing month and the remaining zero-based day-of-month. -/
def monthOfAux (y : Nat) : Nat → Nat → Nat → Nat × Nat
  | 0, doy, m => (m, doy)
  | fuel + 1, doy, m =>
    if doy < monthLen y m then (m, doy)
    else monthOfAux y fuel (doy - monthLen y m) (m + 1)

/-- Month and zero-based day-of-month of a day-of-year in year `y`. -/
def monthOf (y doy : Nat) : Nat × Nat :=
  monthOfAux y 12 doy 1

/-- Civil date (year, month, day), all 1-based, of a day count since
1970-01-01. -/
def civilFromDays (days : Nat) : Nat × Nat × Nat :=
  let yd := yearOf days
  let md := monthOf yd.1 yd.2
  (yd.1, md.1, md.2 + 1)

/-- Total days in the `n` consecutive years starting at year `y`. -/
def yearSpan (y : Nat) : Nat → Nat
  | 0 => 0
  | n + 1 => daysInYear y + yearSpan (y + 1) n

/-- Total days in the `n` consecutive months starting at month `m` of
year `y`. -/
def monthSpan (y m : Nat) : Nat → Nat
  | 0 => 0
  | n + 1 => monthLen y m + monthSpan y (m + 1) n

/-- Day count since 1970-01-01 of the civil date `y`-`m`-`d`. -/
def daysFromCivil (y m d : Nat) : Nat :=
  yearSpan 1970 (y - 1970) + monthSpan y 1 (m - 1) + (d - 1)

/-- Decimal digit character for `n < 10`. -/
def digitChar (n : Nat) : Char := Char.ofNat (48 + n)

/-- Numeric value of a decimal digit character. -/
def digitVal (c : Char) : Nat := c.toNat - 48

/-- Two-digit zero-padded decimal rendering. -/
def pad2 (n : Nat) : List Char := [digitChar (n / 10 % 10), digitChar (n % 10)]

/-- Three-digit zero-padded decimal rendering. -/
def pad3 (n : Nat) : List Char :=
  [digitChar (n / 100 % 10), digitChar (n / 10 % 10), digitChar (n % 10)]

/-- Four-digit zero-padded decimal rendering. -/
def pad4 (n : Nat) : List Char :=
  [digitChar (n / 1000 % 10), digitChar (n / 100 % 10), digitChar (n / 10 % 10),
   digitChar (n % 10)]

/-- Character list of the ISO-8601 extended rendering (UTC, millisecond
precision, Z suffix) of `t` milliseconds since the Unix epoch, as produced by
the JavaScript `Date.prototype.toISOString` for years 1970 through 9999. -/
def isoChars (t : Nat) : List Char :=
  let c := civilFromDays (t / 86400000)
  pad4 c.1 ++ '-' :: pad2 c.2.1 ++ '-' :: pad2 c.2.2 ++
    'T' :: pad2 (t / 3600000 % 24) ++ ':' :: pad2 (t / 60000 % 60) ++
    ':' :: pad2 (t / 1000 % 60) ++ '.' :: pad3 (t % 1000) ++ ['Z']

/-- The model of `new Date(t).toISOString()`. -/
def toISOString (t : Nat) : String := String.mk (isoChars t)

/-- Parse an ISO-8601 timestamp of the exact shape produced by `isoChars`
back to milliseconds since the Unix epoch. -/
def parseISOChars : List Char → Option Nat
  | [y1, y2, y3, y4, a1, m1, m2, a2, d1, d2, a3, h1, h2, a4, i1, i2, a5, s1, s2,
     a6, x1, x2, x3, a7] =>
    if a1 = '-' ∧ a2 = '-' ∧ a3 = 'T' ∧ a4 = ':' ∧ a5 = ':' ∧ a6 = '.' ∧ a7 = 'Z' ∧
        y1.isDigit = true ∧ y2.isDigit = true ∧ y3.isDigit = true ∧ y4.isDigit = true ∧
        m1.isDigit = true ∧ m2.isDigit = true ∧ d1.isDigit = true ∧ d2.isDigit = true ∧
        h1.isDigit = true ∧ h2.isDigit = true ∧ i1.isDigit = true ∧ i2.isDigit = true ∧
        s1.isDigit = true ∧ s2.isDigit = true ∧ x1.isDigit = true ∧ x2.isDigit = true ∧
        x3.isDigit = true then
      some (daysFromCivil
              (digitVal y1 * 1000 + digitVal y2 * 100 + digitVal y3 * 10 + digitVal y4)
              (digitVal m1 * 10 + digitVal m2)
              (digitVal d1 * 10 + digitVal d2) * 86400000
            + (digitVal h1 * 10 + digitVal h2) * 3600000
            + (digitVal i1 * 10 + digitVal i2) * 60000
            + (digitVal s1 * 10 + digitVal s2) * 1000
            + (digitVal x1 * 100 + digitVal x2 * 10 + digitVal x3))
    else none
  | _ => none

/-- Lowercase hexadecimal digit character for `n < 16`. -/
def hexDigitChar (n : Nat) : Char :=
  if n < 10 then Char.ofNat (48 + n) else Char.ofNat (87 + n)

/-- Numeric value of a hexadecimal digit character (either case). -/
def hexVal (c : Char) : Nat :=
  if c.toNat ≤ 57 then c.toNat - 48
  else if c.toNat ≤ 70 then c.toNat - 55
  else c.toNat - 87

/-- Hexadecimal digit test (either case). -/
def isHexDig (c : Char) : Bool :=
  c.isDigit || (65 ≤ c.toNat && c.toNat ≤ 70) || (97 ≤ c.toNat && c.toNat ≤ 102)

/-- JSON escape of one character, as produced by the ECMAScript
QuoteJSONString operation inside `JSON.stringify`: the two-character escapes
for quote, backslash, backspace, tab, newline, form feed and carriage return,
a lowercase `u0000`-style escape for the remaining control characters, and
the character itself otherwise. -/
def escChar (c : Char) : List Char :=
  if c = '"' then ['\\', '"']
  else if c = '\\' then ['\\', '\\']
  else if c = Char.ofNat 8 then ['\\', 'b']
  else if c = '\t' then ['\\', 't']
  else if c = '\n' then ['\\', 'n']
  else if c = Char.ofNat 12 then ['\\', 'f']
  else if c = '\r' then ['\\', 'r']
  else if c.toNat < 32 then
    ['\\', 'u', '0', '0', hexDigitChar (c.toNat / 16), hexDigitChar (c.toNat % 16)]
  else [c]

/-- JSON quoted-string rendering of a character list. -/
def quoteChars (s : List Char) : List Char :=
  '"' :: s.flatMap escChar ++ ['"']

/-- Decode a single-character JSON escape (the short forms). -/
def unescShort (e : Char) : Option Char :=
  if e = '"' then some '"'
  else if e = '\\' then some '\\'
  else if e = '/' then some '/'
  else if e = 'b' then some (Char.ofNat 8)
  else if e = 't' then some '\t'
  else if e = 'n' then some '\n'
  else if e = 'f' then some (Char.ofNat 12)
  else if e = 'r' then some '\r'
  else none

/-- Parse the body of a JSON string (after the opening quote), returning the
decoded characters and the remaining input after the closing quote. The
first argument is recursion fuel; one unit is consumed per decoded
character, so any fuel exceeding the input length suffices. -/
def parseStrAux : Nat → List Char → Option (List Char × List Char)
  | 0, _ => none
  | _ + 1, [] => none
  | fuel + 1, c :: cs =>
    if c = '"' then some ([], cs)
    else if c = '\\' then
      match cs with
      | [] => none
      | e :: cs1 =>
        match unescShort e with
        | some u => (parseStrAux fuel cs1).map (fun p => (u :: p.1, p.2))
        | none =>
          if e = 'u' then
            match cs1 with
            | h1 :: h2 :: h3 :: h4 :: cs2 =>
              if isHexDig h1 && isHexDig h2 && isHexDig h3 && isHexDig h4 then
                (parseStrAux fuel cs2).map (fun p =>
                  (Char.ofNat
                      (((hexVal h1 * 16 + hexVal h2) * 16 + hexVal h3) * 16 + hexVal h4)
                    :: p.1, p.2))
              else none
            | _ => none
          else none
    else if 32 ≤ c.toNat then (parseStrAux fuel cs).map (fun p => (c :: p.1, p.2))
    else none

/-- Opening brace character. -/
def lbrace : Char := Char.ofNat 123

/-- Closing brace character. -/
def rbrace : Char := Char.ofNat 125

/-- The three-field payload built by the handler before serialization. -/
structure Payload where
  message : String
  timestamp : String
  stage : String
deriving DecidableEq

/-- Character list of `JSON.stringify` applied to a `Payload`: an object with
the members `message`, `timestamp`, `stage` in declaration order, each value a
JSON-escaped string, with no whitespace. -/
def stringifyChars (p : Payload) : List Char :=
  lbrace :: (quoteChars "message".data ++ ':' :: quoteChars p.message.data ++
    ',' :: quoteChars "timestamp".data ++ ':' :: quoteChars p.timestamp.data ++
    ',' :: quoteChars "stage".data ++ ':' :: quoteChars p.stage.data) ++ [rbrace]

/-- The model of `JSON.stringify` on the handler payload. -/
def stringifyPayload (p : Payload) : String := String.mk (stringifyChars p)

/-- Parse a JSON quoted string at the head of the input, returning the decoded
string and the remaining input. -/
def parseJString (l : List Char) : Option (String × List Char) :=
  match l with
  | [] => none
  | c :: r =>
    if c = '"' then (parseStrAux (r.length + 1) r).map (fun p => (String.mk p.1, p.2))
    else none

/-- Consume one expected character. -/
def expectChar (c : Char) (l : List Char) : Option (List Char) :=
  match l with
  | [] => none
  | d :: r => if d = c then some r else none

/-- Parse one `"key":"value"` member. -/
def parseMember (l : List Char) : Option ((String × String) × List Char) :=
  (parseJString l).bind (fun kv =>
    (expectChar ':' kv.2).bind (fun r2 =>
      (parseJString r2).map (fun vv => ((kv.1, vv.1), vv.2))))

/-- Parse a whole JSON object with exactly three string-valued members and no
whitespace, returning the key-value pairs in member order. -/
def parseMembers3 (l : List Char) : Option (List (String × String)) :=
  (expectChar lbrace l).bind (fun r0 =>
    (parseMember r0).bind (fun m1 =>
      (expectChar ',' m1.2).bind (fun r1 =>
        (parseMember r1).bind (fun m2 =>
          (expectChar ',' m2.2).bind (fun r2 =>
            (parseMember r2).bind (fun m3 =>
              match m3.2 with
              | [d] => if d = rbrace then some [m1.1, m2.1, m3.1] else none
              | _ => none))))))

/-- Decode the handler body back into a `Payload`, requiring precisely the
keys `message`, `timestamp`, `stage` in that order. -/
def parsePayload (s : String) : Option Payload :=
  match parseMembers3 s.data with
  | some [(k1, v1), (k2, v2), (k3, v3)] =>
    if k1 = "message" ∧ k2 = "timestamp" ∧ k3 = "stage" then some ⟨v1, v2, v3⟩
    else none
  | _ => none

/-- The keys of the decoded body, in member order. -/
def decodedKeys (s : String) : Option (List String) :=
  (parseMembers3 s.data).map (fun ms => ms.map Prod.fst)

/-- The decoded `message` field of a body string. -/
def decodedMessage (s : String) : Option String :=
  (parsePayload s).map Payload.message

/-- The decoded `stage` field of a body string. -/
def decodedStage (s : String) : Option String :=
  (parsePayload s).map Payload.stage

/-- The decoded `timestamp` field of a body string. -/
def decodedTimestamp (s : String) : Option String :=
  (parsePayload s).map Payload.timestamp

/-- The decoded `timestamp` field of a body string, converted back to
milliseconds since the Unix epoch. -/
def decodedTimeMs (s : String) : Option Nat :=
  (decodedTimestamp s).bind (fun ts => parseISOChars ts.data)

/-- The invocation request. The handler in `src/main.js` declares no
parameters and never reads the request, so its content is opaque. -/
structure Request where
  event : String

/-- The process environment surface read by the handler: the optional
`STAGE` variable (`none` models an unset variable). -/
structure Env where
  STAGE : Option String

/-- The model of the JavaScript expression `process.env.STAGE || 'dev'`:
an unset variable and the empty string are both falsy and yield `"dev"`. -/
def getStage (env : Env) : String :=
  match env.STAGE with
  | none => "dev"
  | some s => if s = "" then "dev" else s

/-- The constant message string in `src/main.js`. -/
def helloMessage : String := "Hello World from serverless starter template! Jayvee"

/-- The HTTP-style response envelope returned by the handler. -/
structure ResponseEnvelope where
  statusCode : Nat
  headers : List (String × String)
  body : String
deriving DecidableEq

/-- The fixed header set of `src/main.js`, in declaration order. -/
def responseHeaders : List (String × String) :=
  [("Content-Type", "application/json"),
   ("Access-Control-Allow-Origin", "*"),
   ("Access-Control-Allow-Headers", "Content-Type"),
   ("Access-Control-Allow-Methods", "OPTIONS,POST,GET")]

namespace Handler

/-- The model of `main` from `src/main.js`: the handler ignores the request,
reads `STAGE` with default `"dev"`, renders the current time `now`
(milliseconds since the Unix epoch) as an ISO-8601 string, and returns the
fixed-shape envelope. -/
def main (r : Request) (env : Env) (now : Nat) : ResponseEnvelope :=
  { statusCode := 200
    headers := responseHeaders
    body := stringifyPayload
      { message := helloMessage
        timestamp := toISOString now
        stage := getStage env } }

end Handler

theorem daysInYear_ge (y : Nat) : 365 ≤ daysInYear y := by
  unfold daysInYear; split <;> omega

theorem monthLen_pos (y m : Nat) : 0 < monthLen y m := by
  unfold monthLen
  split <;> first | omega | (split <;> omega)

theorem monthLen_le (y m : Nat) : monthLen y m ≤ 31 := by
  unfold monthLen
  split <;> first | omega | (split <;> omega)

theorem monthSpan_year (y : Nat) : monthSpan y 1 12 = daysInYear y := by
  cases h : isLeap y <;>
    simp [monthSpan, monthLen, daysInYear, h]

theorem yearSpan_le_yearSpan (y : Nat) :
    ∀ n m : Nat, n ≤ m → yearSpan y n ≤ yearSpan y m := by
  intro n
  induction n generalizing y with
  | zero => intro m _; exact Nat.zero_le _
  | succ k ih =>
    intro m hm
    match m, hm with
    | m' + 1, hm =>
      simp only [yearSpan]
      exact Nat.add_le_add_left (ih (y + 1) m' (by omega)) _

theorem yearOfAux_spec (fuel : Nat) :
    ∀ days y, days ≤ 365 * fuel →
      yearSpan y ((yearOfAux fuel days y).1 - y) + (yearOfAux fuel days y).2 = days ∧
      (yearOfAux fuel days y).2 < daysInYear (yearOfAux fuel days y).1 ∧
      y ≤ (yearOfAux fuel days y).1 := by
  induction fuel with
  | zero =>
    intro days y h
    have hd : days = 0 := by omega
    subst hd
    refine ⟨by simp [yearOfAux, yearSpan], ?_, Nat.le_refl _⟩
    have := daysInYear_ge (yearOfAux 0 0 y).1
    simp [yearOfAux] at *
    omega
  | succ fuel ih =>
    intro days y h
    by_cases hlt : days < daysInYear y
    · simp [yearOfAux, hlt, yearSpan]
    · have hge := daysInYear_ge y
      have h' : days - daysInYear y ≤ 365 * fuel := by omega
      have := ih (days - daysInYear y) (y + 1) h'
      simp only [yearOfAux, if_neg hlt]
      obtain ⟨h1, h2, h3⟩ := this
      refine ⟨?_, h2, by omega⟩
      have hk : (yearOfAux fuel (days - daysInYear y) (y + 1)).1 - y
          = ((yearOfAux fuel (days - daysInYear y) (y + 1)).1 - (y + 1)) + 1 := by
        omega
      rw [hk, yearSpan]
      omega

theorem monthOfAux_spec (y : Nat) (fuel : Nat) :
    ∀ doy m, doy < monthSpan y m fuel →
      monthSpan y m ((monthOfAux y fuel doy m).1 - m) + (monthOfAux y fuel doy m).2 = doy ∧
      (monthOfAux y fuel doy m).2 < monthLen y (monthOfAux y fuel doy m).1 ∧
      m ≤ (monthOfAux y fuel doy m).1 ∧
      (monthOfAux y fuel doy m).1 - m < fuel := by
  induction fuel with
  | zero =>
    intro doy m h
    simp [monthSpan] at h
  | succ fuel ih =>
    intro doy m h
    by_cases hlt : doy < monthLen y m
    · simp [monthOfAux, hlt, monthSpan]
    · have h' : doy - monthLen y m < monthSpan y (m + 1) fuel := by
        rw [monthSpan] at h; omega
      have := ih (doy - monthLen y m) (m + 1) h'
      simp only [monthOfAux, if_neg hlt]
      obtain ⟨h1, h2, h3, h4⟩ := this
      refine ⟨?_, h2, by omega, by omega⟩
      have hk : (monthOfAux y fuel (doy - monthLen y m) (m + 1)).1 - m
          = ((monthOfAux y fuel (doy - monthLen y m) (m + 1)).1 - (m + 1)) + 1 := by
        omega
      rw [hk, monthSpan]
      omega

theorem yearOf_spec (days : Nat) :
    yearSpan 1970 ((yearOf days).1 - 1970) + (yearOf days).2 = days ∧
    (yearOf days).2 < daysInYear (yearOf days).1 ∧
    1970 ≤ (yearOf days).1 := by
  exact yearOfAux_spec days days 1970 (by omega)

theorem monthOf_spec (y doy : Nat) (h : doy < daysInYear y) :
    monthSpan y 1 ((monthOf y doy).1 - 1) + (monthOf y doy).2 = doy ∧
    (monthOf y doy).2 < monthLen y (monthOf y doy).1 ∧
    1 ≤ (monthOf y doy).1 ∧
    (monthOf y doy).1 ≤ 12 := by
  have h12 : doy < monthSpan y 1 12 := by rw [monthSpan_year]; exact h
  have h' := monthOfAux_spec y 12 doy 1 h12
  unfold monthOf
  exact ⟨h'.1, h'.2.1, h'.2.2.1, by omega⟩

theorem civil_roundtrip (days : Nat) :
    daysFromCivil (civilFromDays days).1 (civilFromDays days).2.1 (civilFromDays days).2.2
      = days := by
  obtain ⟨hy1, hy2, hy3⟩ := yearOf_spec days
  obtain ⟨hm1, hm2, hm3, hm4⟩ := monthOf_spec (yearOf days).1 (yearOf days).2 hy2
  simp only [civilFromDays, daysFromCivil]
  omega

theorem daysInYear_add_400 (y : Nat) : daysInYear (y + 400) = daysInYear y := by
  have hleap : isLeap (y + 400) = isLeap y := by
    unfold isLeap
    have h4 : (y + 400) % 4 = y % 4 := by omega
    have h100 : (y + 400) % 100 = y % 100 := by omega
    have h400 : (y + 400) % 400 = y % 400 := by omega
    rw [h4, h100, h400]
  unfold daysInYear
  rw [hleap]

theorem yearSpan_add_400 : ∀ n y, yearSpan (y + 400) n = yearSpan y n := by
  intro n
  induction n with
  | zero => intro y; rfl
  | succ k ih =>
    intro y
    simp only [yearSpan, daysInYear_add_400]
    have hy : y + 400 + 1 = (y + 1) + 400 := by omega
    rw [hy, ih (y + 1)]

theorem yearSpan_add : ∀ n k y, yearSpan y (n + k) = yearSpan y n + yearSpan (y + n) k := by
  intro n
  induction n with
  | zero => intro k y; simp [yearSpan]
  | succ m ih =>
    intro k y
    have hh : m + 1 + k = (m + k) + 1 := by omega
    rw [hh]
    simp only [yearSpan]
    rw [ih k (y + 1)]
    have hy : y + (m + 1) = y + 1 + m := by omega
    rw [hy]
    omega

theorem yearSpan_2000_400 : yearSpan 2000 400 = 146097 := by decide

theorem yearSpan_2000_mul : ∀ k, yearSpan 2000 (400 * k) = 146097 * k := by
  intro k
  induction k with
  | zero => rfl
  | succ k ih =>
    have h1 : 400 * (k + 1) = 400 + 400 * k := by ring
    rw [h1, yearSpan_add 400 (400 * k) 2000, yearSpan_2000_400]
    have h2 := yearSpan_add_400 (400 * k) 2000
    norm_num at h2
    rw [h2, ih]
    ring

theorem yearSpan_1970 : yearSpan 1970 8030 = 2932897 := by
  have h := yearSpan_add 30 8000 1970
  norm_num at h
  have h30 : yearSpan 1970 30 = 10957 := by decide
  have h8000 := yearSpan_2000_mul 20
  norm_num at h8000
  omega

theorem civil_bounds (days : Nat) (h : days < 2932897) :
    1970 ≤ (civilFromDays days).1 ∧ (civilFromDays days).1 ≤ 9999 ∧
    1 ≤ (civilFromDays days).2.1 ∧ (civilFromDays days).2.1 ≤ 12 ∧
    1 ≤ (civilFromDays days).2.2 ∧ (civilFromDays days).2.2 ≤ 31 := by
  obtain ⟨hy1, hy2, hy3⟩ := yearOf_spec days
  obtain ⟨hm1, hm2, hm3, hm4⟩ := monthOf_spec (yearOf days).1 (yearOf days).2 hy2
  have hle := monthLen_le (yearOf days).1 (monthOf (yearOf days).1 (yearOf days).2).1
  have hyb : (yearOf days).1 ≤ 9999 := by
    by_contra hc
    have h8 : 8030 ≤ (yearOf days).1 - 1970 := by omega
    have := yearSpan_le_yearSpan 1970 8030 ((yearOf days).1 - 1970) h8
    rw [yearSpan_1970] at this
    omega
  simp only [civilFromDays]
  omega

example : civilFromDays 0 = (1970, 1, 1) := by decide

example : civilFromDays 790 = (1972, 3, 1) := by decide

example : daysFromCivil 1972 3 1 = 790 := by decide

theorem digitChar_isDigit (n : Nat) (h : n < 10) : (digitChar n).isDigit = true := by
  interval_cases n <;> rfl

theorem digitVal_digitChar (n : Nat) (h : n < 10) : digitVal (digitChar n) = n := by
  interval_cases n <;> rfl

theorem iso_roundtrip (t : Nat) (h : t < 253402300800000) :
    parseISOChars (isoChars t) = some t := by
  have hdays : t / 86400000 < 2932897 := by omega
  obtain ⟨b1, b2, b3, b4, b5, b6⟩ := civil_bounds (t / 86400000) hdays
  simp only [isoChars, pad4, pad3, pad2, List.cons_append, List.nil_append]
  rw [parseISOChars]
  rw [if_pos]
  · rw [Option.some_inj]
    rw [digitVal_digitChar _ (by omega), digitVal_digitChar _ (by omega),
        digitVal_digitChar _ (by omega), digitVal_digitChar _ (by omega),
        digitVal_digitChar _ (by omega), digitVal_digitChar _ (by omega),
        digitVal_digitChar _ (by omega), digitVal_digitChar _ (by omega),
        digitVal_digitChar _ (by omega), digitVal_digitChar _ (by omega),
        digitVal_digitChar _ (by omega), digitVal_digitChar _ (by omega),
        digitVal_digitChar _ (by omega), digitVal_digitChar _ (by omega),
        digitVal_digitChar _ (by omega), digitVal_digitChar _ (by omega),
        digitVal_digitChar _ (by omega)]
    have hy : (civilFromDays (t / 86400000)).1 / 1000 % 10 * 1000 +
        (civilFromDays (t / 86400000)).1 / 100 % 10 * 100 +
        (civilFromDays (t / 86400000)).1 / 10 % 10 * 10 +
        (civilFromDays (t / 86400000)).1 % 10 = (civilFromDays (t / 86400000)).1 := by
      omega
    have hm : (civilFromDays (t / 86400000)).2.1 / 10 % 10 * 10 +
        (civilFromDays (t / 86400000)).2.1 % 10 = (civilFromDays (t / 86400000)).2.1 := by
      omega
    have hd : (civilFromDays (t / 86400000)).2.2 / 10 % 10 * 10 +
        (civilFromDays (t / 86400000)).2.2 % 10 = (civilFromDays (t / 86400000)).2.2 := by
      omega
    rw [hy, hm, hd, civil_roundtrip]
    omega
  · refine ⟨rfl, rfl, rfl, rfl, rfl, rfl, rfl, ?_⟩
    refine ⟨digitChar_isDigit _ (by omega), digitChar_isDigit _ (by omega),
      digitChar_isDigit _ (by omega), digitChar_isDigit _ (by omega),
      digitChar_isDigit _ (by omega), digitChar_isDigit _ (by omega),
      digitChar_isDigit _ (by omega), digitChar_isDigit _ (by omega),
      digitChar_isDigit _ (by omega), digitChar_isDigit _ (by omega),
      digitChar_isDigit _ (by omega), digitChar_isDigit _ (by omega),
      digitChar_isDigit _ (by omega), digitChar_isDigit _ (by omega),
      digitChar_isDigit _ (by omega), digitChar_isDigit _ (by omega),
      digitChar_isDigit _ (by omega)⟩

example : toISOString 0 = "1970-01-01T00:00:00.000Z" := by decide

example : toISOString 45296168 = "1970-01-01T12:34:56.168Z" := by decide

theorem hexVal_hexDigitChar (n : Nat) (h : n < 16) : hexVal (hexDigitChar n) = n := by
  interval_cases n <;> rfl

theorem isHexDig_hexDigitChar (n : Nat) (h : n < 16) : isHexDig (hexDigitChar n) = true := by
  interval_cases n <;> rfl

theorem escChar_length_pos (c : Char) : 0 < (escChar c).length := by
  unfold escChar
  split_ifs <;> simp

theorem length_le_flatMap_escChar (s : List Char) :
    s.length ≤ (s.flatMap escChar).length := by
  induction s with
  | nil => simp
  | cons c s ih =>
    have := escChar_length_pos c
    simp only [List.flatMap_cons, List.length_append, List.length_cons]
    omega

theorem parseStrAux_esc (s : List Char) :
    ∀ fuel rest, s.length < fuel →
      parseStrAux fuel (s.flatMap escChar ++ '"' :: rest) = some (s, rest) := by
  induction s with
  | nil =>
    intro fuel rest h
    match fuel, h with
    | fuel + 1, _ => simp [parseStrAux]
  | cons c s ih =>
    intro fuel rest h
    match fuel, h with
    | fuel + 1, h =>
      have ihs := ih fuel rest (by simp at h; omega)
      by_cases h1 : c = '"'
      · subst h1
        have he : escChar '"' = ['\\', '"'] := by decide
        simp only [List.flatMap_cons, he, List.cons_append, List.append_assoc,
          List.nil_append]
        simp [parseStrAux, unescShort, ihs]
      · by_cases h2 : c = '\\'
        · subst h2
          have he : escChar '\\' = ['\\', '\\'] := by decide
          simp only [List.flatMap_cons, he, List.cons_append, List.append_assoc,
            List.nil_append]
          simp [parseStrAux, unescShort, ihs]
        · by_cases h3 : c = Char.ofNat 8
          · subst h3
            have he : escChar (Char.ofNat 8) = ['\\', 'b'] := by decide
            simp only [List.flatMap_cons, he, List.cons_append, List.append_assoc,
              List.nil_append]
            simp [parseStrAux, unescShort, ihs]
          · by_cases h4 : c = '\t'
            · subst h4
              have he : escChar '\t' = ['\\', 't'] := by decide
              simp only [List.flatMap_cons, he, List.cons_append, List.append_assoc,
                List.nil_append]
              simp [parseStrAux, unescShort, ihs]
            · by_cases h5 : c = '\n'
              · subst h5
                have he : escChar '\n' = ['\\', 'n'] := by decide
                simp only [List.flatMap_cons, he, List.cons_append, List.append_assoc,
                  List.nil_append]
                simp [parseStrAux, unescShort, ihs]
              · by_cases h6 : c = Char.ofNat 12
                · subst h6
                  have he : escChar (Char.ofNat 12) = ['\\', 'f'] := by decide
                  simp only [List.flatMap_cons, he, List.cons_append, List.append_assoc,
                    List.nil_append]
                  simp [parseStrAux, unescShort, ihs]
                · by_cases h7 : c = '\r'
                  · subst h7
                    have he : escChar '\r' = ['\\', 'r'] := by decide
                    simp only [List.flatMap_cons, he, List.cons_append, List.append_assoc,
                      List.nil_append]
                    simp [parseStrAux, unescShort, ihs]
                  · by_cases h8 : c.toNat < 32
                    · have hhi : c.toNat / 16 < 16 := by omega
                      have hlo : c.toNat % 16 < 16 := by omega
                      have he : escChar c = ['\\', 'u', '0', '0',
                          hexDigitChar (c.toNat / 16), hexDigitChar (c.toNat % 16)] := by
                        unfold escChar
                        rw [if_neg h1, if_neg h2, if_neg h3, if_neg h4, if_neg h5,
                          if_neg h6, if_neg h7, if_pos h8]
                      have hof : Char.ofNat
                          (((hexVal '0' * 16 + hexVal '0') * 16 +
                              hexVal (hexDigitChar (c.toNat / 16))) * 16 +
                            hexVal (hexDigitChar (c.toNat % 16))) = c := by
                        rw [hexVal_hexDigitChar _ hhi, hexVal_hexDigitChar _ hlo]
                        have h0 : hexVal '0' = 0 := rfl
                        rw [h0]
                        have hn : (0 * 16 + 0) * 16 * 16 + (c.toNat / 16 * 16 +
                            c.toNat % 16) = c.toNat := by omega
                        have hn2 : ((0 * 16 + 0) * 16 + c.toNat / 16) * 16 +
                            c.toNat % 16 = c.toNat := by omega
                        rw [hn2, Char.ofNat_toNat]
                      simp only [List.flatMap_cons, he, List.cons_append,
                        List.append_assoc, List.nil_append]
                      have hx0 : isHexDig '0' = true := by decide
                      simp [parseStrAux, unescShort, hx0,
                        isHexDig_hexDigitChar _ hhi, isHexDig_hexDigitChar _ hlo,
                        hof, ihs]
                    · have he : escChar c = [c] := by
                        unfold escChar
                        rw [if_neg h1, if_neg h2, if_neg h3, if_neg h4, if_neg h5,
                          if_neg h6, if_neg h7, if_neg h8]
                      have h8' : 32 ≤ c.toNat := by omega
                      simp only [List.flatMap_cons, he, List.cons_append,
                        List.nil_append]
                      simp [parseStrAux, h1, h2, h8', ihs]

theorem expectChar_cons (c : Char) (r : List Char) : expectChar c (c :: r) = some r := by
  simp [expectChar]

theorem parseJString_quote (s rest : List Char) :
    parseJString (quoteChars s ++ rest) = some (String.mk s, rest) := by
  have hlen : s.length < (s.flatMap escChar ++ '"' :: rest).length + 1 := by
    have h1 := length_le_flatMap_escChar s
    rw [List.length_append, List.length_cons]
    omega
  unfold quoteChars parseJString
  simp only [List.cons_append, List.append_assoc, List.singleton_append, List.nil_append]
  rw [if_pos, parseStrAux_esc s _ rest hlen] <;> first | rfl | trivial

theorem parseMember_quote (k v rest : List Char) :
    parseMember (quoteChars k ++ ':' :: (quoteChars v ++ rest))
      = some ((String.mk k, String.mk v), rest) := by
  unfold parseMember
  rw [parseJString_quote k (':' :: (quoteChars v ++ rest))]
  rw [Option.some_bind]
  rw [expectChar_cons, Option.some_bind]
  rw [parseJString_quote v rest]
  rfl

theorem members3_stringify (p : Payload) :
    parseMembers3 (stringifyChars p)
      = some [("message", p.message), ("timestamp", p.timestamp), ("stage", p.stage)] := by
  have hshape : stringifyChars p = lbrace :: (quoteChars "message".data ++
      ':' :: (quoteChars p.message.data ++ ',' :: (quoteChars "timestamp".data ++
      ':' :: (quoteChars p.timestamp.data ++ ',' :: (quoteChars "stage".data ++
      ':' :: (quoteChars p.stage.data ++ [rbrace])))))) := by
    simp [stringifyChars, List.append_assoc, List.cons_append]
  rw [hshape]
  unfold parseMembers3
  rw [expectChar_cons, Option.some_bind]
  rw [parseMember_quote "message".data p.message.data, Option.some_bind]
  rw [expectChar_cons, Option.some_bind]
  rw [parseMember_quote "timestamp".data p.timestamp.data, Option.some_bind]
  rw [expectChar_cons, Option.some_bind]
  rw [parseMember_quote "stage".data p.stage.data, Option.some_bind]
  simp

theorem payload_parse (p : Payload) :
    parsePayload (stringifyPayload p) = some p := by
  unfold parsePayload stringifyPayload
  rw [show (String.mk (stringifyChars p)).data = stringifyChars p from rfl]
  rw [members3_stringify]
  simp

theorem main_body (r : Request) (env : Env) (t : Nat) :
    (Handler.main r env t).body
      = stringifyPayload ⟨helloMessage, toISOString t, getStage env⟩ := rfl

theorem decodedTimeMs_body (r : Request) (env : Env) (t : Nat)
    (h : t < 253402300800000) :
    decodedTimeMs (Handler.main r env t).body = some t := by
  unfold decodedTimeMs decodedTimestamp
  rw [main_body, payload_parse]
  show parseISOChars (toISOString t).data = some t
  rw [show (toISOString t).data = isoChars t from rfl]
  exact iso_roundtrip t h

/-- Claim C1: as stated the claim is false on the code: at the concrete invocation
with empty request, unset STAGE and clock 0, the decoded message field is
"Hello World from serverless starter template! Jayvee", not the claimed
constant without the " Jayvee" suffix. -/
theorem c1_counterexample :
    ¬ decodedMessage (Handler.main ⟨""⟩ ⟨none⟩ 0).body
        = some "Hello World from serverless starter template!" := by
  unfold decodedMessage
  rw [main_body, payload_parse]
  intro hc
  have hc2 : some helloMessage
      = some "Hello World from serverless starter template!" := hc
  have : helloMessage = "Hello World from serverless starter template!" :=
    Option.some.inj hc2
  exact absurd this (by decide)

/-- Claim C1 as amended: for every invocation of the handler, the decoded body
message field equals the constant string
"Hello World from serverless starter template! Jayvee". -/
theorem c1_message (r : Request) (env : Env) (t : Nat) :
    decodedMessage (Handler.main r env t).body
      = some "Hello World from serverless starter template! Jayvee" := by
  unfold decodedMessage
  rw [main_body, payload_parse]
  rfl

/-- Claim C2: whenever the STAGE environment variable is absent or the empty
string, the decoded stage field of the handler body equals "dev". -/
theorem c2_stage_defaults_to_dev (r : Request) (env : Env) (t : Nat)
    (h : env.STAGE = none ∨ env.STAGE = some "") :
    decodedStage (Handler.main r env t).body = some "dev" := by
  have hs : getStage env = "dev" := by
    rcases h with h | h <;> simp [getStage, h]
  unfold decodedStage
  rw [main_body, payload_parse]
  show some (getStage env) = some "dev"
  rw [hs]

/-- Witness for C2 at the concrete invocation with STAGE unset. -/
theorem c2_witness : decodedStage (Handler.main ⟨""⟩ ⟨none⟩ 0).body = some "dev" :=
  c2_stage_defaults_to_dev ⟨""⟩ ⟨none⟩ 0 (Or.inl rfl)

/-- Claim C3: whenever STAGE is set to a non-empty string S the decoded stage
field equals S exactly, and for every environment the decoded stage field
is present and non-empty. -/
theorem c3_stage_propagates :
    (∀ (r : Request) (env : Env) (t : Nat) (s : String),
        env.STAGE = some s → s ≠ "" →
        decodedStage (Handler.main r env t).body = some s) ∧
    (∀ (r : Request) (env : Env) (t : Nat),
        ∃ st : String, decodedStage (Handler.main r env t).body = some st ∧ st ≠ "") := by
  have hbody : ∀ (r : Request) (env : Env) (t : Nat),
      decodedStage (Handler.main r env t).body = some (getStage env) := by
    intro r env t
    unfold decodedStage
    rw [main_body, payload_parse]
    rfl
  constructor
  · intro r env t s hs hne
    rw [hbody]
    simp [getStage, hs, hne]
  · intro r env t
    refine ⟨getStage env, hbody r env t, ?_⟩
    cases h : env.STAGE with
    | none =>
      have hg : getStage env = "dev" := by simp [getStage, h]
      rw [hg]; decide
    | some s =>
      by_cases h2 : s = ""
      · have hg : getStage env = "dev" := by simp [getStage, h, h2]
        rw [hg]; decide
      · have hg : getStage env = s := by simp [getStage, h, h2]
        rw [hg]; exact h2

/-- Witness for C3 at the concrete invocation with STAGE set to "prod". -/
theorem c3_witness :
    decodedStage (Handler.main ⟨""⟩ ⟨some "prod"⟩ 0).body = some "prod" :=
  c3_stage_propagates.1 ⟨""⟩ ⟨some "prod"⟩ 0 "prod" rfl (by decide)

/-- Claim C4: every invocation returns exactly the four fixed headers, in order,
with no additional or missing keys. -/
theorem c4_headers_exact (r : Request) (env : Env) (t : Nat) :
    (Handler.main r env t).headers =
      [("Content-Type", "application/json"),
       ("Access-Control-Allow-Origin", "*"),
       ("Access-Control-Allow-Headers", "Content-Type"),
       ("Access-Control-Allow-Methods", "OPTIONS,POST,GET")] := rfl

/-- Claim C5: every invocation, under any environment and clock value, returns
statusCode 200. -/
theorem c5_statusCode_200 (r : Request) (env : Env) (t : Nat) :
    (Handler.main r env t).statusCode = 200 := rfl

/-- Claim C6: the body of every response decodes to exactly the keys message,
timestamp, stage in that order, and the body ends with a closing brace,
which is not whitespace, so it has no trailing whitespace. -/
theorem c6_body_shape (r : Request) (env : Env) (t : Nat) :
    decodedKeys (Handler.main r env t).body = some ["message", "timestamp", "stage"] ∧
    (Handler.main r env t).body.data.getLast? = some rbrace ∧
    rbrace.isWhitespace = false := by
  refine ⟨?_, ?_, by decide⟩
  · unfold decodedKeys
    rw [show (Handler.main r env t).body.data
        = stringifyChars ⟨helloMessage, toISOString t, getStage env⟩ from rfl]
    rw [members3_stringify]
    rfl
  · rw [show (Handler.main r env t).body.data
        = stringifyChars ⟨helloMessage, toISOString t, getStage env⟩ from rfl]
    unfold stringifyChars
    rw [show (lbrace :: (quoteChars "message".data ++
        ':' :: quoteChars helloMessage.data ++
        ',' :: quoteChars "timestamp".data ++ ':' :: quoteChars (toISOString t).data ++
        ',' :: quoteChars "stage".data ++ ':' :: quoteChars (getStage env).data) ++
        [rbrace])
      = (lbrace :: (quoteChars "message".data ++
        ':' :: quoteChars helloMessage.data ++
        ',' :: quoteChars "timestamp".data ++ ':' :: quoteChars (toISOString t).data ++
        ',' :: quoteChars "stage".data ++ ':' :: quoteChars (getStage env).data)) ++
        [rbrace] from rfl]
    exact List.getLast?_concat _

/-- Claim C7: the handler is total: for every request, environment and clock
value it returns the well-defined response envelope below; the model has
no failure path. -/
theorem c7_total (r : Request) (env : Env) (t : Nat) :
    Handler.main r env t =
      { statusCode := 200
        headers := responseHeaders
        body := stringifyPayload
          { message := helloMessage
            timestamp := toISOString t
            stage := getStage env } } := rfl

/-- Claim C8: the handler never inspects the request: any two requests yield
identical response envelopes under the same environment and clock value. -/
theorem c8_request_ignored (r1 r2 : Request) (env : Env) (t : Nat) :
    Handler.main r1 env t = Handler.main r2 env t := rfl

/-- Claim C9: for two invocations whose clock values are ordered (within the
four-digit-year range of the ISO-8601 format), the decoded timestamps are
ordered the same way. -/
theorem c9_timestamp_monotone (r : Request) (env : Env) (t1 t2 : Nat)
    (h12 : t1 ≤ t2) (h2 : t2 < 253402300800000) :
    ∃ n1 n2 : Nat,
      decodedTimeMs (Handler.main r env t1).body = some n1 ∧
      decodedTimeMs (Handler.main r env t2).body = some n2 ∧
      n1 ≤ n2 :=
  ⟨t1, t2, decodedTimeMs_body r env t1 (by omega),
    decodedTimeMs_body r env t2 h2, h12⟩

/-- Witness for C9 at clock values 0 and 86400000. -/
theorem c9_witness :
    ∃ n1 n2 : Nat,
      decodedTimeMs (Handler.main ⟨""⟩ ⟨none⟩ 0).body = some n1 ∧
      decodedTimeMs (Handler.main ⟨""⟩ ⟨none⟩ 86400000).body = some n2 ∧
      n1 ≤ n2 :=
  c9_timestamp_monotone ⟨""⟩ ⟨none⟩ 0 86400000 (by decide) (by decide)

/-- Claim C10: for every environment (any STAGE string, including ones holding
quotes, backslashes or control characters) the body is well-formed and
decoding recovers the message, timestamp and stage values exactly as they
were before serialization. -/
theorem c10_serialization_roundtrip (r : Request) (env : Env) (t : Nat) :
    parsePayload (Handler.main r env t).body =
      some { message := helloMessage
             timestamp := toISOString t
             stage := getStage env } := by
  rw [main_body, payload_parse]

example : decodedStage (Handler.main ⟨""⟩ ⟨some "pr\"od\\x"⟩ 0).body
    = some "pr\"od\\x" := by decide

example : decodedMessage (Handler.main ⟨""⟩ ⟨none⟩ 86400000).body
    = some helloMessage := by decide

example : decodedTimeMs (Handler.main ⟨""⟩ ⟨none⟩ 45296168).body
    = some 45296168 := by decide
